import Mathlib

/-!
Verification of the Scroll Control plugin (src/main.ts).

The development shallowly embeds the plugin's pure logic and its
DOM/tracking state machine:

* `getContrastColor` and its JavaScript helpers (`parseInt(_, 16)`,
  `substring`, shorthand expansion) are embedded as total functions on
  `List Char`, with `Option Int` standing for a possibly-NaN parse
  result and exact integer arithmetic standing for the luminance
  comparison (over the rationals,
  `(0.299*r + 0.587*g + 0.114*b)/255 > 0.5  ↔  299*r + 587*g + 114*b > 127500`).
* the per-pane overlay tracker (`leafButtonContainers`, the debounced
  `handleLayoutChange` body, `addButtonsToLeaf`, `removeButtonsFromLeaf`,
  `updateAllButtons`, `handleActiveLeafChange`, `onunload`) is embedded
  as explicit state passing over `TrackerState`, with pane handles and
  DOM nodes represented by natural-number ids.
-/

namespace ScrollControl

/-! ## Settings (interface `ScrollControlSettings`, `DEFAULT_SETTINGS`) -/

inductive ButtonSize
  | small
  | medium
  | large
deriving DecidableEq, Repr

structure ScrollControlSettings where
  showScrollTopButton : Bool
  showScrollBottomButton : Bool
  buttonSize : ButtonSize
  buttonColor : String
  useCustomColor : Bool
  animationSpeed : Nat
  useAnimations : Bool
  invertButtonOrder : Bool
  buttonSpacing : Nat
  horizontalPadding : Nat
  verticalPadding : Nat
deriving DecidableEq, Repr

def DEFAULT_SETTINGS : ScrollControlSettings :=
  { showScrollTopButton := true
    showScrollBottomButton := true
    buttonSize := ButtonSize.medium
    buttonColor := "#666666"
    useCustomColor := false
    animationSpeed := 300
    useAnimations := true
    invertButtonOrder := false
    buttonSpacing := 12
    horizontalPadding := 20
    verticalPadding := 40 }

/-! ## `getContrastColor` (src/main.ts lines 554-581)

A JavaScript string is a sequence of UTF-16 code units: `utf16` converts
a Lean `String` to that unit sequence, and the length guard, the indexing
of the shorthand expansion, `substring` and `parseInt` of the source all
operate on code units.  A failed `parseInt` (NaN) is `none`.  The
luminance expression is evaluated in IEEE-754 binary64 arithmetic:
`roundDouble` rounds an exact rational to the nearest representable
value (round to nearest, ties to even) and is applied after every
operation of the source expression. -/

/-- UTF-16 code units of one character (a surrogate pair above U+FFFF). -/
def utf16OfChar (c : Char) : List Nat :=
  if c.toNat < 65536 then [c.toNat]
  else [55296 + (c.toNat - 65536) / 1024, 56320 + (c.toNat - 65536) % 1024]

def utf16Units : List Char → List Nat
  | [] => []
  | c :: cs => utf16OfChar c ++ utf16Units cs

/-- The UTF-16 code-unit sequence of a string (JavaScript semantics:
`s.length`, `s[i]` and `s.substring` all work on this sequence). -/
def utf16 (s : String) : List Nat :=
  utf16Units s.data

/-- Value of a hexadecimal digit code unit
(48-57 `0`-`9`, 97-102 `a`-`f`, 65-70 `A`-`F`), `none` otherwise. -/
def hexDigitVal? (u : Nat) : Option Nat :=
  if 48 ≤ u ∧ u ≤ 57 then some (u - 48)
  else if 97 ≤ u ∧ u ≤ 102 then some (u - 97 + 10)
  else if 65 ≤ u ∧ u ≤ 70 then some (u - 65 + 10)
  else none

/-- The ECMAScript whitespace skipped by `parseInt`: TAB, LF, VT, FF,
CR, SP, NBSP, OGHAM SPACE MARK, the EN QUAD..HAIR SPACE block, LINE
SEPARATOR, PARAGRAPH SEPARATOR, NARROW NBSP, MATHEMATICAL SPACE,
IDEOGRAPHIC SPACE and ZWNBSP. -/
def isJsSpace (u : Nat) : Bool :=
  decide (u = 9 ∨ u = 10 ∨ u = 11 ∨ u = 12 ∨ u = 13 ∨ u = 32 ∨ u = 160 ∨
    u = 5760 ∨ (8192 ≤ u ∧ u ≤ 8202) ∨ u = 8232 ∨ u = 8233 ∨ u = 8239 ∨
    u = 8287 ∨ u = 12288 ∨ u = 65279)

/-- `parseInt(_, 16)` skips a leading `0x`/`0X` (units 48, 120, 88). -/
def strip0x (cs : List Nat) : List Nat :=
  match cs with
  | c0 :: c1 :: rest =>
    if c0 = 48 ∧ (c1 = 120 ∨ c1 = 88) then rest else c0 :: c1 :: rest
  | _ => cs

/-- Longest prefix of hexadecimal digits, `none` (NaN) when it is empty. -/
def parseHexDigits (cs : List Nat) : Option Nat :=
  let ds := (strip0x cs).takeWhile (fun u => (hexDigitVal? u).isSome)
  if ds.isEmpty then none
  else some (ds.foldl (fun acc u => 16 * acc + (hexDigitVal? u).getD 0) 0)

/-- JavaScript `parseInt(s, 16)`: skip whitespace, an optional sign
(units 43 `+`, 45 `-`), an optional `0x` prefix, then the longest run of
hex digits; `none` models NaN. -/
def parseIntHex (cs : List Nat) : Option Int :=
  match cs.dropWhile isJsSpace with
  | [] => none
  | c :: rest =>
    if c = 43 then (parseHexDigits rest).map (fun n => (n : Int))
    else if c = 45 then (parseHexDigits rest).map (fun n => -(n : Int))
    else (parseHexDigits (c :: rest)).map (fun n => (n : Int))

/-- JavaScript `s.substring(a, b)` on the code units of `s`. -/
def jsSubstring (cs : List Nat) (a b : Nat) : List Nat :=
  (cs.drop a).take (b - a)

/-- The length-4 shorthand expansion
`'#' + s[1] + s[1] + s[2] + s[2] + s[3] + s[3]` (src/main.ts lines
560-569); unit 35 is `#` — the first unit is replaced by a literal `#`. -/
def expandShorthand (cs : List Nat) : List Nat :=
  match cs with
  | [_, a, b, c] => [35, a, a, b, b, c, c]
  | _ => cs

/-- The guarded expansion: only a string of length exactly 4 is expanded. -/
def expandIfShorthand (cs : List Nat) : List Nat :=
  if cs.length = 4 then expandShorthand cs else cs

/-! ### IEEE-754 binary64 rounding

Every value this program computes lies far inside the normal range of
binary64, so rounding to a 53-bit significand with round-to-nearest,
ties-to-even models the arithmetic exactly; overflow and subnormals
never occur. -/

/-- Round a rational to the nearest integer, ties to even. -/
def rne (x : ℚ) : ℤ :=
  if x - ⌊x⌋ < 1 / 2 then ⌊x⌋
  else if 1 / 2 < x - ⌊x⌋ then ⌊x⌋ + 1
  else if ⌊x⌋ % 2 = 0 then ⌊x⌋ else ⌊x⌋ + 1

/-- Fuel-based binary logarithm (structural recursion so that the kernel
can evaluate it): `natLog2F fuel n = ⌊log₂ n⌋` whenever `0 < n ≤ fuel`. -/
def natLog2F : Nat → Nat → Nat
  | 0, _ => 0
  | fuel + 1, n => if 2 ≤ n then natLog2F fuel (n / 2) + 1 else 0

def natLog2 (n : Nat) : Nat :=
  natLog2F n n

/-- `⌊log₂ |q|⌋` for a nonzero rational. -/
def floorLog2 (q : ℚ) : ℤ :=
  let e0 : ℤ := (natLog2 q.num.natAbs : ℤ) - (natLog2 q.den : ℤ) - 1
  if |q| < (2 : ℚ) ^ (e0 + 1) then e0 else e0 + 1

/-- Round a rational to the nearest binary64 value: scale the magnitude
into `[2^52, 2^53)`, round to the nearest integer significand (ties to
even), and scale back. -/
def roundDouble (q : ℚ) : ℚ :=
  if q = 0 then 0
  else if q < 0 then
    -((rne (|q| * (2 : ℚ) ^ (52 - floorLog2 q)) : ℚ) * (2 : ℚ) ^ (floorLog2 q - 52))
  else
    (rne (|q| * (2 : ℚ) ^ (52 - floorLog2 q)) : ℚ) * (2 : ℚ) ^ (floorLog2 q - 52)

/-- The JavaScript comparison
`(0.299*r + 0.587*g + 0.114*b)/255 > 0.5` in binary64 arithmetic: each
decimal literal and each intermediate result is rounded to the nearest
double; `0.5` and `255` are exact.  A comparison against NaN (`none`)
is false.  The channel values produced by `parseInt` on two-unit
substrings lie in `[-255, 255]` and convert to double exactly. -/
def jsLuminanceGtHalf (r g b : Option Int) : Bool :=
  match r, g, b with
  | some r, some g, some b =>
    let t1 := roundDouble (roundDouble 0.299 * (r : ℚ))
    let t2 := roundDouble (roundDouble 0.587 * (g : ℚ))
    let t3 := roundDouble (roundDouble 0.114 * (b : ℚ))
    let lum := roundDouble (roundDouble (roundDouble (t1 + t2) + t3) / 255)
    decide (1 / 2 < lum)
  | _, _, _ => false

/-- The body of `getContrastColor` on the code-unit sequence.  The guard
`!hexColor || hexColor.length < 4` is `cs.isEmpty ∨ cs.length < 4`
(the empty string is the only falsy string reaching the first test). -/
def contrastOfUnits (cs : List Nat) : String :=
  if cs.isEmpty = true ∨ cs.length < 4 then "#000000"
  else
    let cs := expandIfShorthand cs
    let r := parseIntHex (jsSubstring cs 1 3)
    let g := parseIntHex (jsSubstring cs 3 5)
    let b := parseIntHex (jsSubstring cs 5 7)
    if jsLuminanceGtHalf r g b then "#000000" else "#FFFFFF"

/-- `getContrastColor` (src/main.ts lines 554-581). -/
def getContrastColor (hexColor : String) : String :=
  contrastOfUnits (utf16 hexColor)

/-- The spec's luminance formula, in exact rational arithmetic. -/
def specLuminance (r g b : Nat) : ℚ :=
  (0.299 * r + 0.587 * g + 0.114 * b) / 255

/-! ### Helper lemmas about the hex parser -/

lemma hex_range (u v : Nat) (h : hexDigitVal? u = some v) :
    (48 ≤ u ∧ u ≤ 57) ∨ (97 ≤ u ∧ u ≤ 102) ∨ (65 ≤ u ∧ u ≤ 70) := by
  unfold hexDigitVal? at h
  split_ifs at h with h1 h2 h3
  · exact Or.inl h1
  · exact Or.inr (Or.inl h2)
  · exact Or.inr (Or.inr h3)

lemma hex_val_le (u v : Nat) (h : hexDigitVal? u = some v) : v ≤ 15 := by
  unfold hexDigitVal? at h
  split_ifs at h with h1 h2 h3
  · rw [Option.some_inj] at h; omega
  · rw [Option.some_inj] at h; omega
  · rw [Option.some_inj] at h; omega

lemma hex_not_space (u v : Nat) (h : hexDigitVal? u = some v) :
    isJsSpace u = false := by
  have hr := hex_range u v h
  simp only [isJsSpace, decide_eq_false_iff_not]
  omega

lemma strip0x_pair (u1 u2 : Nat) (h : ¬(u1 = 48 ∧ (u2 = 120 ∨ u2 = 88))) :
    strip0x [u1, u2] = [u1, u2] := by
  simp only [strip0x]
  rw [if_neg h]

lemma parseHexDigits_pair (u1 u2 v1 v2 : Nat)
    (h1 : hexDigitVal? u1 = some v1) (h2 : hexDigitVal? u2 = some v2) :
    parseHexDigits [u1, u2] = some (16 * v1 + v2) := by
  have r2 := hex_range u2 v2 h2
  simp [parseHexDigits, strip0x_pair u1 u2 (by omega), List.takeWhile_cons, h1, h2]

/-- `parseIntHex` on two hexadecimal digits yields the base-16 byte value. -/
lemma parseIntHex_hex_pair (u1 u2 v1 v2 : Nat)
    (h1 : hexDigitVal? u1 = some v1) (h2 : hexDigitVal? u2 = some v2) :
    parseIntHex [u1, u2] = some ((16 * v1 + v2 : Nat) : Int) := by
  have r1 := hex_range u1 v1 h1
  have hs := hex_not_space u1 v1 h1
  simp [parseIntHex, List.dropWhile_cons, hs, if_neg (by omega : ¬u1 = 43),
    if_neg (by omega : ¬u1 = 45), parseHexDigits_pair u1 u2 v1 v2 h1 h2]

/-! ### Exact-threshold lemmas for the spec's formula -/

lemma specLuminance_eq (r g b : Nat) :
    specLuminance r g b = (299 * r + 587 * g + 114 * b : ℚ) / 255000 := by
  unfold specLuminance
  rw [show (0.299 : ℚ) = 299 / 1000 by norm_num,
    show (0.587 : ℚ) = 587 / 1000 by norm_num,
    show (0.114 : ℚ) = 114 / 1000 by norm_num]
  ring

lemma specLuminance_le_half_iff (r g b : Nat) :
    specLuminance r g b ≤ 1 / 2 ↔
      299 * (r : Int) + 587 * (g : Int) + 114 * (b : Int) ≤ 127500 := by
  rw [specLuminance_eq, div_le_div_iff₀ (by norm_num) (by norm_num)]
  constructor
  · intro h
    have h2 : (299 * r + 587 * g + 114 * b : ℚ) ≤ 127500 := by linarith
    exact_mod_cast h2
  · intro h
    have h2 : (299 * r + 587 * g + 114 * b : ℚ) ≤ 127500 := by exact_mod_cast h
    linarith

lemma specLuminance_eq_half_iff (r g b : Nat) :
    specLuminance r g b = 1 / 2 ↔ 299 * r + 587 * g + 114 * b = 127500 := by
  rw [specLuminance_eq, div_eq_iff (by norm_num)]
  constructor
  · intro h
    have h2 : (299 * r + 587 * g + 114 * b : ℚ) = 127500 := by linarith
    exact_mod_cast h2
  · intro h
    have h2 : (299 * r + 587 * g + 114 * b : ℚ) = 127500 := by exact_mod_cast h
    linarith

/-! ### Correctness of the binary64 rounding model -/

lemma natLog2F_spec : ∀ (fuel n : Nat), n ≠ 0 → n ≤ fuel →
    2 ^ natLog2F fuel n ≤ n ∧ n < 2 ^ (natLog2F fuel n + 1) := by
  intro fuel
  induction fuel with
  | zero => intro n h0 hle; omega
  | succ fuel ih =>
    intro n h0 hle
    by_cases h2 : 2 ≤ n
    · have hdiv0 : n / 2 ≠ 0 := by omega
      have hdivle : n / 2 ≤ fuel := by omega
      obtain ⟨ih1, ih2⟩ := ih (n / 2) hdiv0 hdivle
      rw [show natLog2F (fuel + 1) n = natLog2F fuel (n / 2) + 1 from by
        simp [natLog2F, h2]]
      constructor
      · rw [pow_succ]
        omega
      · rw [pow_succ]
        omega
    · rw [show natLog2F (fuel + 1) n = 0 from by simp [natLog2F, h2]]
      constructor
      · simpa using Nat.one_le_iff_ne_zero.mpr h0
      · simpa using (by omega : n < 2)

lemma natLog2_spec (n : Nat) (h0 : n ≠ 0) :
    2 ^ natLog2 n ≤ n ∧ n < 2 ^ (natLog2 n + 1) :=
  natLog2F_spec n n h0 le_rfl

lemma rne_err (x : ℚ) : |(rne x : ℚ) - x| ≤ 1 / 2 := by
  have h1 : (⌊x⌋ : ℚ) ≤ x := Int.floor_le x
  have h2 : x < ⌊x⌋ + 1 := Int.lt_floor_add_one x
  unfold rne
  split_ifs with hc1 hc2 hc3 <;> rw [abs_le] <;> push_cast <;>
    constructor <;> linarith

lemma abs_rat_eq (q : ℚ) : |q| = (q.num.natAbs : ℚ) / (q.den : ℚ) := by
  conv_lhs => rw [← Rat.num_div_den q]
  rw [abs_div]
  congr 1
  · rw [Int.cast_natAbs, Int.cast_abs]
  · exact abs_of_pos (by exact_mod_cast q.den_pos)

lemma floorLog2_spec (q : ℚ) (hq : q ≠ 0) :
    (2 : ℚ) ^ floorLog2 q ≤ |q| ∧ |q| < (2 : ℚ) ^ (floorLog2 q + 1) := by
  have hn0 : q.num.natAbs ≠ 0 := Int.natAbs_ne_zero.mpr (Rat.num_ne_zero.mpr hq)
  have hd0 : q.den ≠ 0 := q.den_nz
  obtain ⟨hn1, hn2⟩ := natLog2_spec q.num.natAbs hn0
  obtain ⟨hd1, hd2⟩ := natLog2_spec q.den hd0
  set a : ℤ := (natLog2 q.num.natAbs : ℤ) with ha
  set b : ℤ := (natLog2 q.den : ℤ) with hb
  have habs : |q| = (q.num.natAbs : ℚ) / (q.den : ℚ) := abs_rat_eq q
  have hdpos : (0 : ℚ) < (q.den : ℚ) := by exact_mod_cast q.den_pos
  have F1 : (2 : ℚ) ^ a ≤ (q.num.natAbs : ℚ) := by
    rw [ha, zpow_natCast]
    exact_mod_cast hn1
  have F2 : ((q.num.natAbs : ℚ)) < (2 : ℚ) ^ (a + 1) := by
    rw [ha, show ((natLog2 q.num.natAbs : ℤ) + 1) =
        ((natLog2 q.num.natAbs + 1 : Nat) : ℤ) by push_cast; ring,
      zpow_natCast]
    exact_mod_cast hn2
  have F3 : (2 : ℚ) ^ b ≤ (q.den : ℚ) := by
    rw [hb, zpow_natCast]
    exact_mod_cast hd1
  have F4 : ((q.den : ℚ)) < (2 : ℚ) ^ (b + 1) := by
    rw [hb, show ((natLog2 q.den : ℤ) + 1) =
        ((natLog2 q.den + 1 : Nat) : ℤ) by push_cast; ring,
      zpow_natCast]
    exact_mod_cast hd2
  have hlow : (2 : ℚ) ^ (a - b - 1) ≤ |q| := by
    rw [habs, le_div_iff₀ hdpos]
    calc (2 : ℚ) ^ (a - b - 1) * (q.den : ℚ)
        ≤ (2 : ℚ) ^ (a - b - 1) * (2 : ℚ) ^ (b + 1) :=
          mul_le_mul_of_nonneg_left (le_of_lt F4) (le_of_lt (zpow_pos (by norm_num) _))
      _ = (2 : ℚ) ^ a := by
          rw [← zpow_add₀ (by norm_num : (2 : ℚ) ≠ 0)]
          ring_nf
      _ ≤ (q.num.natAbs : ℚ) := F1
  have hhigh : |q| < (2 : ℚ) ^ (a - b + 1) := by
    rw [habs, div_lt_iff₀ hdpos]
    calc ((q.num.natAbs : ℚ)) < (2 : ℚ) ^ (a + 1) := F2
      _ = (2 : ℚ) ^ (a - b + 1) * (2 : ℚ) ^ b := by
          rw [← zpow_add₀ (by norm_num : (2 : ℚ) ≠ 0)]
          ring_nf
      _ ≤ (2 : ℚ) ^ (a - b + 1) * (q.den : ℚ) :=
          mul_le_mul_of_nonneg_left F3 (le_of_lt (zpow_pos (by norm_num) _))
  unfold floorLog2
  rw [← ha, ← hb]
  by_cases hc : |q| < (2 : ℚ) ^ (a - b - 1 + 1)
  · rw [if_pos hc]
    exact ⟨hlow, hc⟩
  · rw [if_neg hc]
    constructor
    · exact le_of_not_lt hc
    · rw [show a - b - 1 + 1 + 1 = a - b + 1 by ring]
      exact hhigh

lemma roundDouble_err (q : ℚ) : |roundDouble q - q| ≤ |q| / 2 ^ 53 := by
  by_cases h0 : q = 0
  · simp [roundDouble, h0]
  obtain ⟨hlo, hhi⟩ := floorLog2_spec q h0
  set e := floorLog2 q with he
  set x := |q| * (2 : ℚ) ^ (52 - e) with hx
  have hzpos : (0 : ℚ) < (2 : ℚ) ^ (e - 52) := zpow_pos (by norm_num) _
  have hxe : (rne x : ℚ) * (2 : ℚ) ^ (e - 52) - |q| =
      ((rne x : ℚ) - x) * (2 : ℚ) ^ (e - 52) := by
    rw [sub_mul, hx, mul_assoc, ← zpow_add₀ (by norm_num : (2 : ℚ) ≠ 0)]
    norm_num
  have hmag : abs ((rne x : ℚ) * (2 : ℚ) ^ (e - 52) - |q|) ≤ (2 : ℚ) ^ (e - 52) / 2 := by
    rw [hxe, abs_mul, abs_of_pos hzpos]
    have := mul_le_mul_of_nonneg_right (rne_err x) (le_of_lt hzpos)
    linarith
  have hbound : (2 : ℚ) ^ (e - 52) / 2 ≤ |q| / 2 ^ 53 := by
    have h1 : (2 : ℚ) ^ (e - 52) / 2 = (2 : ℚ) ^ e / 2 ^ (53 : ℕ) := by
      rw [zpow_sub₀ (by norm_num : (2 : ℚ) ≠ 0), div_div]
      norm_num
    rw [h1]
    gcongr
  unfold roundDouble
  rw [if_neg h0, ← he, ← hx]
  by_cases hneg : q < 0
  · rw [if_pos hneg]
    have heq : -((rne x : ℚ) * (2 : ℚ) ^ (e - 52)) - q =
        -((rne x : ℚ) * (2 : ℚ) ^ (e - 52) - |q|) := by
      rw [abs_of_neg hneg]
      ring
    rw [heq, abs_neg]
    exact le_trans hmag hbound
  · rw [if_neg hneg]
    have heq : (rne x : ℚ) * (2 : ℚ) ^ (e - 52) - q =
        (rne x : ℚ) * (2 : ℚ) ^ (e - 52) - |q| := by
      rw [abs_of_nonneg (le_of_not_lt hneg)]
    rw [heq]
    exact le_trans hmag hbound

/-! ### Evaluating the rounding model on concrete inputs

The Mathlib rational-arithmetic instances do not reduce inside the
kernel, so concrete values of `roundDouble` are established through the
following characterization lemmas and `norm_num`. -/

lemma floorLog2_unique (q : ℚ) (e : ℤ) (h0 : q ≠ 0)
    (h1 : (2 : ℚ) ^ e ≤ |q|) (h2 : |q| < (2 : ℚ) ^ (e + 1)) :
    floorLog2 q = e := by
  obtain ⟨g1, g2⟩ := floorLog2_spec q h0
  by_contra hne
  rcases lt_or_gt_of_ne hne with hlt | hgt
  · have : (2 : ℚ) ^ (floorLog2 q + 1) ≤ (2 : ℚ) ^ e :=
      zpow_le_zpow_right₀ (by norm_num) (by omega)
    linarith
  · have : (2 : ℚ) ^ (e + 1) ≤ (2 : ℚ) ^ floorLog2 q :=
      zpow_le_zpow_right₀ (by norm_num) (by omega)
    linarith

lemma roundDouble_pos_eq (q : ℚ) (e : ℤ) (h0 : 0 < q)
    (h1 : (2 : ℚ) ^ e ≤ q) (h2 : q < (2 : ℚ) ^ (e + 1)) :
    roundDouble q = (rne (q * (2 : ℚ) ^ (52 - e)) : ℚ) * (2 : ℚ) ^ (e - 52) := by
  have habs : |q| = q := abs_of_pos h0
  have hfl : floorLog2 q = e :=
    floorLog2_unique q e (ne_of_gt h0) (by rwa [habs]) (by rwa [habs])
  unfold roundDouble
  rw [if_neg (ne_of_gt h0), if_neg (not_lt.mpr (le_of_lt h0)), hfl, habs]

lemma rne_eq_low (x : ℚ) (n : ℤ) (h1 : (n : ℚ) ≤ x) (h2 : x < (n : ℚ) + 1 / 2) :
    rne x = n := by
  have hfl : ⌊x⌋ = n := Int.floor_eq_iff.mpr ⟨h1, by linarith⟩
  unfold rne
  rw [hfl, if_pos (by linarith)]

lemma rne_eq_high (x : ℚ) (n : ℤ) (h1 : (n : ℚ) - 1 / 2 < x) (h2 : x ≤ (n : ℚ)) :
    rne x = n := by
  rcases eq_or_lt_of_le h2 with heq | hlt
  · subst heq
    unfold rne
    rw [Int.floor_intCast]
    rw [if_pos (by norm_num)]
  · have hfl : ⌊x⌋ = n - 1 :=
      Int.floor_eq_iff.mpr ⟨by push_cast; linarith, by push_cast; linarith⟩
    unfold rne
    rw [hfl, if_neg (by push_cast; linarith), if_pos (by push_cast; linarith)]
    omega

lemma rne_eq_tie_odd (x : ℚ) (n : ℤ) (h : x = (n : ℚ) + 1 / 2) (ho : n % 2 = 1) :
    rne x = n + 1 := by
  have hfl : ⌊x⌋ = n :=
    Int.floor_eq_iff.mpr ⟨by rw [h]; linarith, by rw [h]; linarith⟩
  unfold rne
  rw [hfl, if_neg (by rw [h]; linarith),
    if_neg (by rw [h]; linarith), if_neg (by omega)]

/-- The one valid input with exact luminance 1/2 where the binary64
evaluation lands strictly above 0.5: at channels (218, 58, 248) the
computed double is `0.5 + 2⁻⁵³`, so the code returns black. -/
lemma jsLuminanceGtHalf_tie :
    jsLuminanceGtHalf (some 218) (some 58) (some 248) = true := by
  have hA : roundDouble (0.299 : ℚ) = (5386305154335113 : ℚ) * (2 : ℚ) ^ (-54 : ℤ) := by
    rw [roundDouble_pos_eq (0.299 : ℚ) (-2) (by norm_num) (by norm_num) (by norm_num),
      rne_eq_low _ 5386305154335113 (by norm_num) (by norm_num)]
    norm_num
  have hB : roundDouble (0.587 : ℚ) = (5287225962532962 : ℚ) * (2 : ℚ) ^ (-53 : ℤ) := by
    rw [roundDouble_pos_eq (0.587 : ℚ) (-1) (by norm_num) (by norm_num) (by norm_num),
      rne_eq_low _ 5287225962532962 (by norm_num) (by norm_num)]
    norm_num
  have hC : roundDouble (0.114 : ℚ) = (8214565720323785 : ℚ) * (2 : ℚ) ^ (-56 : ℤ) := by
    rw [roundDouble_pos_eq (0.114 : ℚ) (-4) (by norm_num) (by norm_num) (by norm_num),
      rne_eq_high _ 8214565720323785 (by norm_num) (by norm_num)]
    norm_num
  have ht1 : roundDouble (roundDouble (0.299 : ℚ) * ((218 : ℤ) : ℚ)) =
      (4586775482988495 : ℚ) * (2 : ℚ) ^ (-46 : ℤ) := by
    rw [hA, roundDouble_pos_eq _ 6 (by norm_num) (by norm_num) (by norm_num),
      rne_eq_high _ 4586775482988495 (by norm_num) (by norm_num)]
    norm_num
  have ht2 : roundDouble (roundDouble (0.587 : ℚ) * ((58 : ℤ) : ℚ)) =
      (4791548528545497 : ℚ) * (2 : ℚ) ^ (-47 : ℤ) := by
    rw [hB, roundDouble_pos_eq _ 5 (by norm_num) (by norm_num) (by norm_num),
      rne_eq_high _ 4791548528545497 (by norm_num) (by norm_num)]
    norm_num
  have ht3 : roundDouble (roundDouble (0.114 : ℚ) * ((248 : ℤ) : ℚ)) =
      (7957860541563667 : ℚ) * (2 : ℚ) ^ (-48 : ℤ) := by
    rw [hC, roundDouble_pos_eq _ 4 (by norm_num) (by norm_num) (by norm_num),
      rne_eq_high _ 7957860541563667 (by norm_num) (by norm_num)]
    norm_num
  have hs1 : roundDouble ((4586775482988495 : ℚ) * (2 : ℚ) ^ (-46 : ℤ) +
      (4791548528545497 : ℚ) * (2 : ℚ) ^ (-47 : ℤ)) =
      (6982549747261244 : ℚ) * (2 : ℚ) ^ (-46 : ℤ) := by
    rw [roundDouble_pos_eq _ 6 (by norm_num) (by norm_num) (by norm_num),
      rne_eq_tie_odd _ 6982549747261243 (by norm_num) (by norm_num)]
    norm_num
  have hs2 : roundDouble ((6982549747261244 : ℚ) * (2 : ℚ) ^ (-46 : ℤ) +
      (7957860541563667 : ℚ) * (2 : ℚ) ^ (-48 : ℤ)) =
      (8972014882652161 : ℚ) * (2 : ℚ) ^ (-46 : ℤ) := by
    rw [roundDouble_pos_eq _ 6 (by norm_num) (by norm_num) (by norm_num),
      rne_eq_high _ 8972014882652161 (by norm_num) (by norm_num)]
    norm_num
  have hlum : roundDouble ((8972014882652161 : ℚ) * (2 : ℚ) ^ (-46 : ℤ) / 255) =
      (4503599627370497 : ℚ) * (2 : ℚ) ^ (-53 : ℤ) := by
    rw [roundDouble_pos_eq _ (-1) (by norm_num) (by norm_num) (by norm_num),
      rne_eq_high _ 4503599627370497 (by norm_num) (by norm_num)]
    norm_num
  simp only [jsLuminanceGtHalf]
  rw [ht1, ht2, ht3, hs1, hs2, hlum, decide_eq_true_eq]
  norm_num

/-! ### Error analysis of the binary64 luminance evaluation

Away from the exact-1/2 boundary, the accumulated rounding error of the
six-operation luminance expression (at most a few hundred units in
`2⁻⁵³`) is vastly smaller than the spacing `1/255000` of the exact
values, so the double comparison agrees with the exact rational one. -/

lemma roundConst_err (c : ℚ) (h0 : (0 : ℚ) < c) (h1 : c ≤ 1) :
    |roundDouble c - c| ≤ 1 / 2 ^ 53 := by
  refine le_trans (roundDouble_err c) ?_
  rw [abs_of_pos h0]
  have : (0 : ℚ) < 2 ^ 53 := by norm_num
  rw [div_le_div_iff₀ this this]
  nlinarith

lemma prod_step (A c rq : ℚ) (hA : |A - c| ≤ 1 / 2 ^ 53) (hc0 : 0 ≤ c)
    (hc1 : c ≤ 3 / 5) (hr0 : 0 ≤ rq) (hr255 : rq ≤ 255) :
    |roundDouble (A * rq) - c * rq| ≤ 600 / 2 ^ 53 ∧
      |roundDouble (A * rq)| ≤ 155 := by
  have h1 : |A * rq - c * rq| ≤ 255 / 2 ^ 53 := by
    rw [show A * rq - c * rq = (A - c) * rq by ring, abs_mul, abs_of_nonneg hr0]
    calc |A - c| * rq ≤ 1 / 2 ^ 53 * rq := mul_le_mul_of_nonneg_right hA hr0
      _ ≤ 1 / 2 ^ 53 * 255 := mul_le_mul_of_nonneg_left hr255 (by norm_num)
      _ = 255 / 2 ^ 53 := by ring
  have h2 : |c * rq| ≤ 153 := by
    rw [abs_mul, abs_of_nonneg hc0, abs_of_nonneg hr0]
    calc c * rq ≤ 3 / 5 * rq := mul_le_mul_of_nonneg_right hc1 hr0
      _ ≤ 3 / 5 * 255 := mul_le_mul_of_nonneg_left hr255 (by norm_num)
      _ = 153 := by norm_num
  have h3 : |A * rq| ≤ 154 := by
    calc |A * rq| = |(A * rq - c * rq) + c * rq| := by rw [sub_add_cancel]
      _ ≤ |A * rq - c * rq| + |c * rq| := abs_add _ _
      _ ≤ 255 / 2 ^ 53 + 153 := add_le_add h1 h2
      _ ≤ 154 := by norm_num
  have h4 : |roundDouble (A * rq) - A * rq| ≤ 154 / 2 ^ 53 := by
    refine le_trans (roundDouble_err _) ?_
    gcongr
  constructor
  · calc |roundDouble (A * rq) - c * rq|
        ≤ |roundDouble (A * rq) - A * rq| + |A * rq - c * rq| := abs_sub_le _ _ _
      _ ≤ 154 / 2 ^ 53 + 255 / 2 ^ 53 := add_le_add h4 h1
      _ ≤ 600 / 2 ^ 53 := by norm_num
  · calc |roundDouble (A * rq)|
        = |(roundDouble (A * rq) - A * rq) + A * rq| := by rw [sub_add_cancel]
      _ ≤ |roundDouble (A * rq) - A * rq| + |A * rq| := abs_add _ _
      _ ≤ 154 / 2 ^ 53 + 154 := add_le_add h4 h3
      _ ≤ 155 := by norm_num

lemma lum_err (x1 x2 x3 L1 L2 L3 : ℚ)
    (h1 : |x1 - L1| ≤ 600 / 2 ^ 53) (b1 : |x1| ≤ 155)
    (h2 : |x2 - L2| ≤ 600 / 2 ^ 53) (b2 : |x2| ≤ 155)
    (h3 : |x3 - L3| ≤ 600 / 2 ^ 53) (b3 : |x3| ≤ 155) :
    |roundDouble (roundDouble (roundDouble (x1 + x2) + x3) / 255) -
      (L1 + L2 + L3) / 255| ≤ 13 / 2 ^ 53 := by
  have e1 : |roundDouble (x1 + x2) - (x1 + x2)| ≤ 310 / 2 ^ 53 := by
    refine le_trans (roundDouble_err _) ?_
    have hx : |x1 + x2| ≤ 310 := le_trans (abs_add _ _) (by linarith)
    gcongr
  have b4 : |roundDouble (x1 + x2)| ≤ 311 := by
    calc |roundDouble (x1 + x2)|
        = |(roundDouble (x1 + x2) - (x1 + x2)) + (x1 + x2)| := by rw [sub_add_cancel]
      _ ≤ |roundDouble (x1 + x2) - (x1 + x2)| + |x1 + x2| := abs_add _ _
      _ ≤ 310 / 2 ^ 53 + 310 := add_le_add e1 (le_trans (abs_add _ _) (by linarith))
      _ ≤ 311 := by norm_num
  have e2 : |roundDouble (roundDouble (x1 + x2) + x3) -
      (roundDouble (x1 + x2) + x3)| ≤ 466 / 2 ^ 53 := by
    refine le_trans (roundDouble_err _) ?_
    have hx : |roundDouble (x1 + x2) + x3| ≤ 466 := le_trans (abs_add _ _) (by linarith)
    gcongr
  have b5 : |roundDouble (roundDouble (x1 + x2) + x3)| ≤ 467 := by
    calc |roundDouble (roundDouble (x1 + x2) + x3)|
        = |(roundDouble (roundDouble (x1 + x2) + x3) -
            (roundDouble (x1 + x2) + x3)) + (roundDouble (x1 + x2) + x3)| := by
          rw [sub_add_cancel]
      _ ≤ _ + _ := abs_add _ _
      _ ≤ 466 / 2 ^ 53 + 466 := add_le_add e2 (le_trans (abs_add _ _) (by linarith))
      _ ≤ 467 := by norm_num
  have e3 : |roundDouble (roundDouble (roundDouble (x1 + x2) + x3) / 255) -
      roundDouble (roundDouble (x1 + x2) + x3) / 255| ≤ 2 / 2 ^ 53 := by
    refine le_trans (roundDouble_err _) ?_
    have hx : |roundDouble (roundDouble (x1 + x2) + x3) / 255| ≤ 2 := by
      rw [abs_div]
      rw [show |(255 : ℚ)| = 255 by norm_num]
      rw [div_le_iff₀ (by norm_num)]
      linarith
    gcongr
  obtain ⟨l1, u1⟩ := abs_le.mp h1
  obtain ⟨l2, u2⟩ := abs_le.mp h2
  obtain ⟨l3, u3⟩ := abs_le.mp h3
  obtain ⟨le1, ue1⟩ := abs_le.mp e1
  obtain ⟨le2, ue2⟩ := abs_le.mp e2
  obtain ⟨le3, ue3⟩ := abs_le.mp e3
  rw [abs_le]
  constructor <;> [nlinarith; nlinarith]

/-- Away from the exact-1/2 boundary, the binary64 comparison of the
code agrees with the exact rational comparison of the spec's formula. -/
lemma jsLuminanceGtHalf_exact (r g b : Nat) (hr : r ≤ 255) (hg : g ≤ 255)
    (hb : b ≤ 255) (hne : 299 * r + 587 * g + 114 * b ≠ 127500) :
    (jsLuminanceGtHalf (some (r : ℤ)) (some (g : ℤ)) (some (b : ℤ)) = true ↔
      127500 < 299 * r + 587 * g + 114 * b) := by
  have hcA : |roundDouble (0.299 : ℚ) - 0.299| ≤ 1 / 2 ^ 53 :=
    roundConst_err _ (by norm_num) (by norm_num)
  have hcB : |roundDouble (0.587 : ℚ) - 0.587| ≤ 1 / 2 ^ 53 :=
    roundConst_err _ (by norm_num) (by norm_num)
  have hcC : |roundDouble (0.114 : ℚ) - 0.114| ≤ 1 / 2 ^ 53 :=
    roundConst_err _ (by norm_num) (by norm_num)
  have hr0 : (0 : ℚ) ≤ (r : ℚ) := Nat.cast_nonneg r
  have hg0 : (0 : ℚ) ≤ (g : ℚ) := Nat.cast_nonneg g
  have hb0 : (0 : ℚ) ≤ (b : ℚ) := Nat.cast_nonneg b
  have hr255 : (r : ℚ) ≤ 255 := by exact_mod_cast hr
  have hg255 : (g : ℚ) ≤ 255 := by exact_mod_cast hg
  have hb255 : (b : ℚ) ≤ 255 := by exact_mod_cast hb
  obtain ⟨p1, q1⟩ := prod_step (roundDouble (0.299 : ℚ)) 0.299 (r : ℚ) hcA
    (by norm_num) (by norm_num) hr0 hr255
  obtain ⟨p2, q2⟩ := prod_step (roundDouble (0.587 : ℚ)) 0.587 (g : ℚ) hcB
    (by norm_num) (by norm_num) hg0 hg255
  obtain ⟨p3, q3⟩ := prod_step (roundDouble (0.114 : ℚ)) 0.114 (b : ℚ) hcC
    (by norm_num) (by norm_num) hb0 hb255
  have key := lum_err _ _ _ _ _ _ p1 q1 p2 q2 p3 q3
  have hLsum : (0.299 * (r : ℚ) + 0.587 * (g : ℚ) + 0.114 * (b : ℚ)) / 255 =
      (299 * (r : ℚ) + 587 * (g : ℚ) + 114 * (b : ℚ)) / 255000 := by
    rw [show (0.299 : ℚ) = 299 / 1000 by norm_num,
      show (0.587 : ℚ) = 587 / 1000 by norm_num,
      show (0.114 : ℚ) = 114 / 1000 by norm_num]
    ring
  rw [hLsum] at key
  obtain ⟨kl, ku⟩ := abs_le.mp key
  simp only [jsLuminanceGtHalf, decide_eq_true_eq]
  push_cast
  constructor
  · intro hlum
    by_contra hle
    have hle' : 299 * r + 587 * g + 114 * b ≤ 127499 := by omega
    have hQ : (299 * (r : ℚ) + 587 * (g : ℚ) + 114 * (b : ℚ)) ≤ 127499 := by
      exact_mod_cast hle'
    have : (299 * (r : ℚ) + 587 * (g : ℚ) + 114 * (b : ℚ)) / 255000 ≤
        127499 / 255000 := by linarith
    linarith
  · intro hgt
    have hge : 127501 ≤ 299 * r + 587 * g + 114 * b := by omega
    have hQ : (127501 : ℚ) ≤ 299 * (r : ℚ) + 587 * (g : ℚ) + 114 * (b : ℚ) := by
      exact_mod_cast hge
    have : (127501 : ℚ) / 255000 ≤
        (299 * (r : ℚ) + 587 * (g : ℚ) + 114 * (b : ℚ)) / 255000 := by linarith
    linarith

/-! ### Evaluating `getContrastColor` -/

lemma utf16OfChar_bmp (c : Char) (h : c.toNat < 65536) :
    utf16OfChar c = [c.toNat] := by
  simp [utf16OfChar, h]

lemma utf16_cons (c : Char) (cs : List Char) (h : c.toNat < 65536) :
    utf16Units (c :: cs) = c.toNat :: utf16Units cs := by
  rw [utf16Units, utf16OfChar_bmp c h]
  rfl

lemma hex_char_bmp (c : Char) (v : Nat) (h : hexDigitVal? c.toNat = some v) :
    c.toNat < 65536 := by
  have := hex_range c.toNat v h
  omega

lemma specLuminance_ne_half (r g b : Nat)
    (h : 299 * r + 587 * g + 114 * b ≠ 127500) :
    specLuminance r g b ≠ 1 / 2 :=
  fun he => h ((specLuminance_eq_half_iff r g b).mp he)

/-- On a 7-unit list headed by `#` the guard fails, no expansion happens,
and the three channel substrings are the three unit pairs. -/
lemma contrastOfUnits_seven (u1 u2 u3 u4 u5 u6 : Nat) :
    contrastOfUnits [35, u1, u2, u3, u4, u5, u6] =
      if jsLuminanceGtHalf (parseIntHex [u1, u2]) (parseIntHex [u3, u4])
        (parseIntHex [u5, u6]) then "#000000" else "#FFFFFF" :=
  rfl

/-- Same for a 9-unit list: units 7 and 8 are ignored. -/
lemma contrastOfUnits_nine (u1 u2 u3 u4 u5 u6 u7 u8 : Nat) :
    contrastOfUnits [35, u1, u2, u3, u4, u5, u6, u7, u8] =
      if jsLuminanceGtHalf (parseIntHex [u1, u2]) (parseIntHex [u3, u4])
        (parseIntHex [u5, u6]) then "#000000" else "#FFFFFF" :=
  rfl

/-- A 4-unit list headed by `#` is processed exactly as its nibble-doubled
7-unit expansion. -/
lemma contrastOfUnits_shorthand (u1 u2 u3 : Nat) :
    contrastOfUnits [35, u1, u2, u3] =
      contrastOfUnits [35, u1, u1, u2, u2, u3, u3] :=
  rfl

lemma jsLuminanceGtHalf_none_left (g b : Option Int) :
    jsLuminanceGtHalf none g b = false := by
  cases g <;> cases b <;> rfl

/-- On a list of length ≥ 4 whose red substring does not parse (NaN),
the comparison is false and white is returned. -/
lemma contrastOfUnits_red_nan (cs : List Nat) (hlen : 4 ≤ cs.length)
    (hr : parseIntHex (jsSubstring (expandIfShorthand cs) 1 3) = none) :
    contrastOfUnits cs = "#FFFFFF" := by
  have hguard : ¬(cs.isEmpty = true ∨ cs.length < 4) := by
    rw [List.isEmpty_iff]
    rintro (h | h)
    · subst h
      simp at hlen
    · omega
  unfold contrastOfUnits
  rw [if_neg hguard]
  show (if jsLuminanceGtHalf (parseIntHex (jsSubstring (expandIfShorthand cs) 1 3))
      (parseIntHex (jsSubstring (expandIfShorthand cs) 3 5))
      (parseIntHex (jsSubstring (expandIfShorthand cs) 5 7)) then "#000000"
    else "#FFFFFF") = "#FFFFFF"
  rw [hr, jsLuminanceGtHalf_none_left]
  rfl

/-- A well-formed `#RRGGBB` input away from the exact luminance-1/2
boundary: the result is white iff the exact luminance is ≤ 1/2. -/
lemma contrast_full_hex (u1 u2 u3 u4 u5 u6 v1 v2 v3 v4 v5 v6 : Nat)
    (h1 : hexDigitVal? u1 = some v1) (h2 : hexDigitVal? u2 = some v2)
    (h3 : hexDigitVal? u3 = some v3) (h4 : hexDigitVal? u4 = some v4)
    (h5 : hexDigitVal? u5 = some v5) (h6 : hexDigitVal? u6 = some v6)
    (hne : specLuminance (16 * v1 + v2) (16 * v3 + v4) (16 * v5 + v6) ≠ 1 / 2) :
    contrastOfUnits [35, u1, u2, u3, u4, u5, u6] =
      if specLuminance (16 * v1 + v2) (16 * v3 + v4) (16 * v5 + v6) ≤ 1 / 2
      then "#FFFFFF" else "#000000" := by
  have hr := parseIntHex_hex_pair u1 u2 v1 v2 h1 h2
  have hg := parseIntHex_hex_pair u3 u4 v3 v4 h3 h4
  have hb := parseIntHex_hex_pair u5 u6 v5 v6 h5 h6
  have hvr : 16 * v1 + v2 ≤ 255 := by
    have e1 := hex_val_le u1 v1 h1
    have e2 := hex_val_le u2 v2 h2
    omega
  have hvg : 16 * v3 + v4 ≤ 255 := by
    have e1 := hex_val_le u3 v3 h3
    have e2 := hex_val_le u4 v4 h4
    omega
  have hvb : 16 * v5 + v6 ≤ 255 := by
    have e1 := hex_val_le u5 v5 h5
    have e2 := hex_val_le u6 v6 h6
    omega
  have hneX : 299 * (16 * v1 + v2) + 587 * (16 * v3 + v4) +
      114 * (16 * v5 + v6) ≠ 127500 :=
    fun hX => hne ((specLuminance_eq_half_iff _ _ _).mpr hX)
  have hiff := jsLuminanceGtHalf_exact _ _ _ hvr hvg hvb hneX
  rw [contrastOfUnits_seven, hr, hg, hb]
  by_cases hgt : 127500 < 299 * (16 * v1 + v2) + 587 * (16 * v3 + v4) +
      114 * (16 * v5 + v6)
  · have hsl : ¬ specLuminance (16 * v1 + v2) (16 * v3 + v4) (16 * v5 + v6) ≤ 1 / 2 := by
      rw [specLuminance_le_half_iff]
      push_cast
      omega
    rw [if_pos (hiff.mpr hgt), if_neg hsl]
  · have hsl : specLuminance (16 * v1 + v2) (16 * v3 + v4) (16 * v5 + v6) ≤ 1 / 2 := by
      rw [specLuminance_le_half_iff]
      push_cast
      omega
    rw [if_neg (fun ht => hgt (hiff.mp ht)), if_pos hsl]

/-- `#DA3AF8` (channels 218, 58, 248) returns black: the exact luminance
is exactly 1/2, but the binary64 evaluation lands at `0.5 + 2⁻⁵³`. -/
lemma contrast_DA3AF8 : getContrastColor "#DA3AF8" = "#000000" := by
  have hu : utf16 "#DA3AF8" = [35, 68, 65, 51, 65, 70, 56] := by decide
  have hr : parseIntHex [68, 65] = some 218 := by decide
  have hg : parseIntHex [51, 65] = some 58 := by decide
  have hb : parseIntHex [70, 56] = some 248 := by decide
  unfold getContrastColor
  rw [hu, contrastOfUnits_seven, hr, hg, hb, if_pos jsLuminanceGtHalf_tie]

/-- C3 counterexample: the well-formed input "#DA3AF8" has exact
luminance `(0.299·218 + 0.587·58 + 0.114·248)/255` equal to exactly 1/2,
so the claim requires white, but `getContrastColor` evaluates the
luminance in binary64 arithmetic, where it comes out as `0.5 + 2⁻⁵³ >
0.5`, and returns black. -/
theorem C3_counterexample :
    specLuminance 218 58 248 = 1 / 2 ∧ getContrastColor "#DA3AF8" = "#000000" := by
  constructor
  · rw [specLuminance_eq]
    norm_num
  · exact contrast_DA3AF8

/-- C3 (amended): for every well-formed `#RRGGBB` input whose exact
luminance `(0.299R + 0.587G + 0.114B)/255` is not exactly 1/2,
`getContrastColor` returns white iff that luminance is ≤ 1/2 (and black
iff it exceeds 1/2); every well-formed `#RGB` input is processed exactly
as its nibble-doubled `#RRGGBB` expansion; `getContrastColor "#000000" =
"#FFFFFF"`, `getContrastColor "#FFFFFF"= "#000000"`, and
`getContrastColor "#fff" = getContrastColor "#ffffff"`.  At the
boundary the spec's ≤-1/2 rule is not preserved exactly: "#DA3AF8" has
exact luminance 1/2 yet returns black, because the binary64 evaluation
of the luminance expression lands at `0.5 + 2⁻⁵³`. -/
theorem C3_contrast_tiebreak :
    (∀ (c1 c2 c3 c4 c5 c6 : Char) (v1 v2 v3 v4 v5 v6 : Nat),
      hexDigitVal? c1.toNat = some v1 → hexDigitVal? c2.toNat = some v2 →
      hexDigitVal? c3.toNat = some v3 → hexDigitVal? c4.toNat = some v4 →
      hexDigitVal? c5.toNat = some v5 → hexDigitVal? c6.toNat = some v6 →
      specLuminance (16 * v1 + v2) (16 * v3 + v4) (16 * v5 + v6) ≠ 1 / 2 →
      getContrastColor (String.mk ['#', c1, c2, c3, c4, c5, c6]) =
        if specLuminance (16 * v1 + v2) (16 * v3 + v4) (16 * v5 + v6) ≤ 1 / 2
        then "#FFFFFF" else "#000000") ∧
    (∀ (c1 c2 c3 : Char) (v1 v2 v3 : Nat),
      hexDigitVal? c1.toNat = some v1 → hexDigitVal? c2.toNat = some v2 →
      hexDigitVal? c3.toNat = some v3 →
      getContrastColor (String.mk ['#', c1, c2, c3]) =
        getContrastColor (String.mk ['#', c1, c1, c2, c2, c3, c3])) ∧
    getContrastColor "#000000" = "#FFFFFF" ∧
    getContrastColor "#FFFFFF" = "#000000" ∧
    getContrastColor "#fff" = getContrastColor "#ffffff" ∧
    getContrastColor "#DA3AF8" = "#000000" ∧
    specLuminance 218 58 248 = 1 / 2 := by
  refine ⟨?_, ?_, ?_, ?_, ?_, ?_, ?_⟩
  · intro c1 c2 c3 c4 c5 c6 v1 v2 v3 v4 v5 v6 k1 k2 k3 k4 k5 k6 hne
    have b1 := hex_char_bmp c1 v1 k1
    have b2 := hex_char_bmp c2 v2 k2
    have b3 := hex_char_bmp c3 v3 k3
    have b4 := hex_char_bmp c4 v4 k4
    have b5 := hex_char_bmp c5 v5 k5
    have b6 := hex_char_bmp c6 v6 k6
    have hu : utf16 (String.mk ['#', c1, c2, c3, c4, c5, c6]) =
        [35, c1.toNat, c2.toNat, c3.toNat, c4.toNat, c5.toNat, c6.toNat] := by
      show utf16Units _ = _
      rw [utf16_cons _ _ (by decide), utf16_cons _ _ b1, utf16_cons _ _ b2,
        utf16_cons _ _ b3, utf16_cons _ _ b4, utf16_cons _ _ b5,
        utf16_cons _ _ b6]
      rfl
    unfold getContrastColor
    rw [hu]
    exact contrast_full_hex _ _ _ _ _ _ _ _ _ _ _ _ k1 k2 k3 k4 k5 k6 hne
  · intro c1 c2 c3 v1 v2 v3 k1 k2 k3
    have b1 := hex_char_bmp c1 v1 k1
    have b2 := hex_char_bmp c2 v2 k2
    have b3 := hex_char_bmp c3 v3 k3
    have hu4 : utf16 (String.mk ['#', c1, c2, c3]) =
        [35, c1.toNat, c2.toNat, c3.toNat] := by
      show utf16Units _ = _
      rw [utf16_cons _ _ (by decide), utf16_cons _ _ b1, utf16_cons _ _ b2,
        utf16_cons _ _ b3]
      rfl
    have hu7 : utf16 (String.mk ['#', c1, c1, c2, c2, c3, c3]) =
        [35, c1.toNat, c1.toNat, c2.toNat, c2.toNat, c3.toNat, c3.toNat] := by
      show utf16Units _ = _
      rw [utf16_cons _ _ (by decide), utf16_cons _ _ b1, utf16_cons _ _ b1,
        utf16_cons _ _ b2, utf16_cons _ _ b2, utf16_cons _ _ b3,
        utf16_cons _ _ b3]
      rfl
    unfold getContrastColor
    rw [hu4, hu7, contrastOfUnits_shorthand]
  · have hu : utf16 "#000000" = [35, 48, 48, 48, 48, 48, 48] := by decide
    have hcond : specLuminance (16 * 0 + 0) (16 * 0 + 0) (16 * 0 + 0) ≤ 1 / 2 := by
      rw [specLuminance_le_half_iff]
      decide
    unfold getContrastColor
    rw [hu, contrast_full_hex 48 48 48 48 48 48 0 0 0 0 0 0 (by decide) (by decide)
      (by decide) (by decide) (by decide) (by decide)
      (specLuminance_ne_half _ _ _ (by decide)), if_pos hcond]
  · have hu : utf16 "#FFFFFF" = [35, 70, 70, 70, 70, 70, 70] := by decide
    have hcond : ¬ specLuminance (16 * 15 + 15) (16 * 15 + 15) (16 * 15 + 15) ≤ 1 / 2 := by
      rw [specLuminance_le_half_iff]
      decide
    unfold getContrastColor
    rw [hu, contrast_full_hex 70 70 70 70 70 70 15 15 15 15 15 15 (by decide) (by decide)
      (by decide) (by decide) (by decide) (by decide)
      (specLuminance_ne_half _ _ _ (by decide)), if_neg hcond]
  · have h4 : utf16 "#fff" = [35, 102, 102, 102] := by decide
    have h7 : utf16 "#ffffff" = [35, 102, 102, 102, 102, 102, 102] := by decide
    unfold getContrastColor
    rw [h4, h7, contrastOfUnits_shorthand]
  · exact contrast_DA3AF8
  · rw [specLuminance_eq]
    norm_num

/-- Witness for C3: at the well-formed input "#1a2b3c" (channels 26, 43,
60, exact luminance below 1/2) the first conjunct applies. -/
theorem C3_witness :
    getContrastColor (String.mk ['#', '1', 'a', '2', 'b', '3', 'c']) =
      if specLuminance (16 * 1 + 10) (16 * 2 + 11) (16 * 3 + 12) ≤ 1 / 2
      then "#FFFFFF" else "#000000" :=
  C3_contrast_tiebreak.1 '1' 'a' '2' 'b' '3' 'c' 1 10 2 11 3 12
    (by decide) (by decide) (by decide) (by decide) (by decide) (by decide)
    (specLuminance_ne_half _ _ _ (by decide))

/-- C4 counterexample: "#zzz" is malformed (`z` is not a hex digit) and 4
units long, so the claim requires the black fallback, but the red channel
parses to NaN, the comparison `luminance > 0.5` is false on NaN, and the
code returns white. -/
theorem C4_counterexample : getContrastColor "#zzz" = "#FFFFFF" := by
  decide

/-- C4 (amended): the black fallback is guaranteed exactly for the inputs
shorter than 4 UTF-16 code units, including the empty string (the only
falsy string).  A malformed input of length ≥ 4 is not mapped to the
fallback: when its red channel fails to parse (NaN on the first
`parseInt`), the comparison `luminance > 0.5` is false and white is
returned, and a malformed input whose channel substrings happen to parse
can even return black, e.g. "#ffffffff". -/
theorem C4_amended_fallback :
    (∀ s : String, (utf16 s).length < 4 → getContrastColor s = "#000000") ∧
    (∀ s : String, 4 ≤ (utf16 s).length →
      parseIntHex (jsSubstring (expandIfShorthand (utf16 s)) 1 3) = none →
      getContrastColor s = "#FFFFFF") ∧
    getContrastColor "#ffffffff" = "#000000" := by
  refine ⟨?_, ?_, ?_⟩
  · intro s h
    unfold getContrastColor contrastOfUnits
    rw [if_pos (Or.inr h)]
  · intro s hlen hr
    unfold getContrastColor
    exact contrastOfUnits_red_nan _ hlen hr
  · have hu : utf16 "#ffffffff" =
        [35, 102, 102, 102, 102, 102, 102, 102, 102] := by decide
    have hp : parseIntHex [102, 102] = some 255 := by decide
    have h255 : jsLuminanceGtHalf (some ((255 : ℕ) : ℤ)) (some ((255 : ℕ) : ℤ))
        (some ((255 : ℕ) : ℤ)) = true :=
      (jsLuminanceGtHalf_exact 255 255 255 le_rfl le_rfl le_rfl (by decide)).mpr
        (by decide)
    have hcast : ((255 : ℕ) : ℤ) = 255 := by norm_num
    rw [hcast] at h255
    unfold getContrastColor
    rw [hu, contrastOfUnits_nine, hp, if_pos h255]

/-- Witness for C4: "#z" is 2 units long and falls to the black fallback;
"#zzzz" is 5 units long with a NaN red channel and returns white. -/
theorem C4_amended_witness :
    getContrastColor "#z" = "#000000" ∧ getContrastColor "#zzzz" = "#FFFFFF" :=
  ⟨C4_amended_fallback.1 "#z" (by decide),
   C4_amended_fallback.2.1 "#zzzz" (by decide) (by decide)⟩

/-- C10: `getContrastColor` is total: on every input string it returns
either "#000000" or "#FFFFFF" — every branch of the body produces one of
the two literals. -/
theorem C10_getContrastColor_total (s : String) :
    getContrastColor s = "#000000" ∨ getContrastColor s = "#FFFFFF" := by
  simp only [getContrastColor, contrastOfUnits]
  split
  · exact Or.inl rfl
  · split
    · exact Or.inl rfl
    · exact Or.inr rfl

/-! ## Overlay tracker state machine

Pane handles (`WorkspaceLeaf`) and DOM nodes are represented by natural
number ids.  `TrackerState` carries the `leafButtonContainers` map as an
association list, the list of container nodes attached to the document,
the children created inside each container, the two visibility classes
(`scroll-control-visible` / `scroll-control-hidden`) as sets of container
ids, the style element, a fresh-node counter for `document.createElement`,
and a count of document mutations (appends, removals, class toggles on
attached nodes). -/

/-- One floating button as produced by `createFloatingButtons`
(src/main.ts lines 331-395): its tooltip and its sort order. -/
structure ButtonSpec where
  tooltip : String
  order : Nat
deriving DecidableEq, Repr

/-- Stable insertion used to model `Array.prototype.sort` with comparator
`(a, b) => a.order - b.order`. -/
def insertByOrder (b : ButtonSpec) : List ButtonSpec → List ButtonSpec
  | [] => [b]
  | a :: as => if a.order ≤ b.order then a :: insertByOrder b as else b :: a :: as

def sortByOrder (bs : List ButtonSpec) : List ButtonSpec :=
  bs.foldr insertByOrder []

/-- The button list built by `createFloatingButtons` from the settings:
optional top button, optional bottom button, ordered by the
`invertButtonOrder` flag. -/
def buttonsFor (st : ScrollControlSettings) : List ButtonSpec :=
  sortByOrder
    ((if st.showScrollTopButton then
        [{ tooltip := "Scroll to Top", order := if st.invertButtonOrder then 1 else 0 }]
      else []) ++
     (if st.showScrollBottomButton then
        [{ tooltip := "Scroll to Bottom", order := if st.invertButtonOrder then 0 else 1 }]
      else []))

/-- The host environment a handler runs against: the current list of open
Markdown panes (`getLeavesOfType('markdown')`), whether a pane's view is
(still) a `MarkdownView`, whether its `.view-content` element resolves,
the active pane, and the current settings. -/
structure World where
  openLeaves : List Nat
  isMarkdown : Nat → Bool
  resolvable : Nat → Bool
  activeLeaf : Option Nat
  settings : ScrollControlSettings

structure TrackerState where
  tracked : List (Nat × Nat)
  attached : List Nat
  contents : List (Nat × List ButtonSpec)
  visClass : Finset Nat
  hidClass : Finset Nat
  styleAttached : Bool
  nextId : Nat
  mutations : Nat
deriving DecidableEq

def emptyTracker : TrackerState :=
  { tracked := []
    attached := []
    contents := []
    visClass := ∅
    hidClass := ∅
    styleAttached := true
    nextId := 0
    mutations := 0 }

/-- The pane handles currently tracked (the key set of the map). -/
def trackedLeaves (t : List (Nat × Nat)) : List Nat :=
  t.map (fun p => p.1)

/-- `leafButtonContainers.has(leaf)`. -/
def hasKey (t : List (Nat × Nat)) (l : Nat) : Bool :=
  t.any (fun p => decide (p.1 = l))

/-- `leafButtonContainers.delete(leaf)`. -/
def keyErase (t : List (Nat × Nat)) (l : Nat) : List (Nat × Nat) :=
  t.filter (fun p => decide (p.1 ≠ l))

/-- `container.toggleClass(cls, b)`: force the presence of a class. -/
def setClass (cls : Finset Nat) (c : Nat) (b : Bool) : Finset Nat :=
  if b then insert c cls else cls.erase c

/-- `addButtonsToLeaf` (src/main.ts lines 242-264): skip non-Markdown views
and already-tracked panes; create a container node; if `.view-content`
does not resolve, discard it; otherwise append it, record the
association, populate the buttons and set the initial visibility from the
active pane (`updateSingleLeafVisibility`, lines 283-290). -/
def addButtonsToLeaf (w : World) (s : TrackerState) (leaf : Nat) : TrackerState :=
  if !w.isMarkdown leaf || hasKey s.tracked leaf then s
  else
    let container := s.nextId
    if !w.resolvable leaf then { s with nextId := s.nextId + 1 }
    else
      let bs := buttonsFor w.settings
      let isActive := decide (w.activeLeaf = some leaf)
      { s with
        tracked := s.tracked ++ [(leaf, container)]
        attached := s.attached ++ [container]
        contents := s.contents ++ [(container, bs)]
        visClass := setClass s.visClass container isActive
        hidClass := setClass s.hidClass container (!isActive)
        nextId := s.nextId + 1
        mutations := s.mutations + 1 + bs.length + 2 }

/-- `removeButtonsFromLeaf` (src/main.ts lines 270-276): if the pane is
tracked, detach its container from the document and drop the
association.  The detached node keeps its classes and children. -/
def removeButtonsFromLeaf (s : TrackerState) (leaf : Nat) : TrackerState :=
  match List.lookup leaf s.tracked with
  | none => s
  | some container =>
    { s with
      tracked := keyErase s.tracked leaf
      attached := s.attached.erase container
      mutations := s.mutations + 1 }

/-- One step of the add loop of `handleLayoutChange`: `known` is the key
snapshot taken before the loop. -/
def reconcileAddStep (w : World) (known : List Nat) (acc : TrackerState) (leaf : Nat) :
    TrackerState :=
  if leaf ∈ known then acc else addButtonsToLeaf w acc leaf

/-- One step of the remove loop of `handleLayoutChange`. -/
def reconcileRemoveStep (current : List Nat) (acc : TrackerState) (leaf : Nat) :
    TrackerState :=
  if leaf ∈ current then acc else removeButtonsFromLeaf acc leaf

/-- The body of the debounced `handleLayoutChange` (src/main.ts lines
195-218): add buttons to open panes that are not yet tracked, then remove
buttons from tracked panes that are no longer open. -/
def reconcile (w : World) (s : TrackerState) : TrackerState :=
  let known := trackedLeaves s.tracked
  (known.foldl (reconcileRemoveStep w.openLeaves)
    (w.openLeaves.foldl (reconcileAddStep w known) s))

/-- One step of `updateAllButtons`: remove then re-add for one open pane. -/
def updateStep (w : World) (acc : TrackerState) (leaf : Nat) : TrackerState :=
  addButtonsToLeaf w (removeButtonsFromLeaf acc leaf) leaf

/-- `updateAllButtons` (src/main.ts lines 184-189): for every open
Markdown pane, remove the old buttons and add new ones. -/
def updateAllButtons (w : World) (s : TrackerState) : TrackerState :=
  w.openLeaves.foldl (updateStep w) s

/-- One step of `handleActiveLeafChange`: toggle the two visibility
classes of a tracked container whose pane is a Markdown view. -/
def hacStep (w : World) (activeLeaf : Option Nat) (acc : TrackerState) (p : Nat × Nat) :
    TrackerState :=
  if w.isMarkdown p.1 then
    let shouldBeVisible := decide (some p.1 = activeLeaf)
    { acc with
      visClass := setClass acc.visClass p.2 shouldBeVisible
      hidClass := setClass acc.hidClass p.2 (!shouldBeVisible)
      mutations := acc.mutations + 2 }
  else acc

/-- `handleActiveLeafChange` (src/main.ts lines 226-234). -/
def handleActiveLeafChange (w : World) (activeLeaf : Option Nat) (s : TrackerState) :
    TrackerState :=
  s.tracked.foldl (hacStep w activeLeaf) s

/-- `onunload` (src/main.ts lines 120-127): detach every tracked
container, clear the map, and detach the style element. -/
def onunloadPlugin (s : TrackerState) : TrackerState :=
  { s with
    tracked := []
    attached := s.tracked.foldl (fun att p => att.erase p.2) s.attached
    styleAttached := false
    mutations := s.mutations + s.tracked.length + 1 }

/-- The observable part of the tracker state: the association table, the
attached overlay DOM with its contents and classes, the style element and
the document-mutation count.  Only the fresh-node counter is excluded
(creating a detached node mutates nothing observable). -/
def obs (s : TrackerState) :
    List (Nat × Nat) × List Nat × List (Nat × List ButtonSpec) ×
      Finset Nat × Finset Nat × Bool × Nat :=
  (s.tracked, s.attached, s.contents, s.visClass, s.hidClass, s.styleAttached, s.mutations)

/-! ### Key-set lemmas for the reconciliation loop -/

lemma hasKey_iff {t : List (Nat × Nat)} {l : Nat} :
    hasKey t l = true ↔ l ∈ trackedLeaves t := by
  simp [hasKey, trackedLeaves, List.any_eq_true]

lemma lookup_eq_none_iff {l : Nat} {t : List (Nat × Nat)} :
    List.lookup l t = none ↔ l ∉ trackedLeaves t := by
  induction t with
  | nil => simp [trackedLeaves]
  | cons p t ih =>
    obtain ⟨k, v⟩ := p
    by_cases hk : l = k
    · subst hk
      simp [List.lookup, trackedLeaves]
    · rw [show List.lookup l ((k, v) :: t) = List.lookup l t from by
        simp [List.lookup, show (l == k) = false from by simpa using hk]]
      simp [trackedLeaves, hk] at ih ⊢
      exact ih

lemma mem_trackedLeaves_keyErase {t : List (Nat × Nat)} {l k : Nat} :
    l ∈ trackedLeaves (keyErase t k) ↔ l ∈ trackedLeaves t ∧ l ≠ k := by
  simp only [trackedLeaves, keyErase, List.mem_map, List.mem_filter,
    decide_eq_true_eq]
  constructor
  · rintro ⟨p, ⟨hp, hne⟩, he⟩
    exact ⟨⟨p, hp, he⟩, he ▸ hne⟩
  · rintro ⟨⟨p, hp, he⟩, hne⟩
    exact ⟨p, ⟨hp, he ▸ hne⟩, he⟩

lemma trackedLeaves_add (w : World) (s : TrackerState) (leaf l : Nat) :
    l ∈ trackedLeaves (addButtonsToLeaf w s leaf).tracked ↔
      l ∈ trackedLeaves s.tracked ∨
        (l = leaf ∧ w.isMarkdown leaf = true ∧ w.resolvable leaf = true) := by
  by_cases hmd : w.isMarkdown leaf = true
  · by_cases hk : hasKey s.tracked leaf = true
    · have hmem := hasKey_iff.mp hk
      rw [show addButtonsToLeaf w s leaf = s from by simp [addButtonsToLeaf, hmd, hk]]
      constructor
      · exact Or.inl
      · rintro (h | ⟨rfl, -, -⟩)
        · exact h
        · exact hmem
    · by_cases hres : w.resolvable leaf = true
      · rw [show (addButtonsToLeaf w s leaf).tracked = s.tracked ++ [(leaf, s.nextId)]
            from by simp [addButtonsToLeaf, hmd, hk, hres]]
        simp [trackedLeaves, hmd, hres]
      · rw [show (addButtonsToLeaf w s leaf).tracked = s.tracked
            from by simp [addButtonsToLeaf, hmd, hk, hres, Bool.not_eq_true _ |>.mpr]]
        simp only [Bool.not_eq_true] at hres
        simp [hres]
  · rw [show addButtonsToLeaf w s leaf = s from by
      simp [addButtonsToLeaf, Bool.not_eq_true _ |>.symm ▸ hmd]]
    simp only [Bool.not_eq_true] at hmd
    simp [hmd]

lemma trackedLeaves_remove (s : TrackerState) (k l : Nat) :
    l ∈ trackedLeaves (removeButtonsFromLeaf s k).tracked ↔
      l ∈ trackedLeaves s.tracked ∧ l ≠ k := by
  unfold removeButtonsFromLeaf
  cases hlk : List.lookup k s.tracked with
  | none =>
    have hk := lookup_eq_none_iff.mp hlk
    constructor
    · intro h
      exact ⟨h, fun he => hk (he ▸ h)⟩
    · exact fun h => h.1
  | some c => simpa using mem_trackedLeaves_keyErase

lemma addFold_mem (w : World) (known : List Nat) :
    ∀ (L : List Nat) (s : TrackerState) (l : Nat),
      l ∈ trackedLeaves (L.foldl (reconcileAddStep w known) s).tracked ↔
        l ∈ trackedLeaves s.tracked ∨
          (l ∈ L ∧ l ∉ known ∧ w.isMarkdown l = true ∧ w.resolvable l = true) := by
  intro L
  induction L with
  | nil => simp
  | cons a L ih =>
    intro s l
    rw [List.foldl_cons, ih]
    unfold reconcileAddStep
    by_cases ha : a ∈ known
    · rw [if_pos ha]
      constructor
      · rintro (h | h)
        · exact Or.inl h
        · exact Or.inr ⟨List.mem_cons_of_mem _ h.1, h.2⟩
      · rintro (h | ⟨hmem, hnk, hrest⟩)
        · exact Or.inl h
        · rcases List.mem_cons.mp hmem with rfl | hmem'
          · exact absurd ha hnk
          · exact Or.inr ⟨hmem', hnk, hrest⟩
    · rw [if_neg ha, trackedLeaves_add]
      constructor
      · rintro ((h | ⟨rfl, hmd, hres⟩) | ⟨hL, hnk, hrest⟩)
        · exact Or.inl h
        · exact Or.inr ⟨List.mem_cons_self _ _, ha, hmd, hres⟩
        · exact Or.inr ⟨List.mem_cons_of_mem _ hL, hnk, hrest⟩
      · rintro (h | ⟨hmem, hnk, hmd, hres⟩)
        · exact Or.inl (Or.inl h)
        · rcases List.mem_cons.mp hmem with rfl | hmem'
          · exact Or.inl (Or.inr ⟨rfl, hmd, hres⟩)
          · exact Or.inr ⟨hmem', hnk, hmd, hres⟩

lemma removeFold_mem (current : List Nat) :
    ∀ (K : List Nat) (s : TrackerState) (l : Nat),
      l ∈ trackedLeaves (K.foldl (reconcileRemoveStep current) s).tracked ↔
        l ∈ trackedLeaves s.tracked ∧ (l ∈ K → l ∈ current) := by
  intro K
  induction K with
  | nil => simp
  | cons a K ih =>
    intro s l
    rw [List.foldl_cons, ih]
    unfold reconcileRemoveStep
    by_cases ha : a ∈ current
    · rw [if_pos ha]
      constructor
      · rintro ⟨h, him⟩
        refine ⟨h, fun hm => ?_⟩
        rcases List.mem_cons.mp hm with rfl | hm'
        · exact ha
        · exact him hm'
      · rintro ⟨h, him⟩
        exact ⟨h, fun hm => him (List.mem_cons_of_mem _ hm)⟩
    · rw [if_neg ha, trackedLeaves_remove]
      constructor
      · rintro ⟨⟨h, hne⟩, him⟩
        refine ⟨h, fun hm => ?_⟩
        rcases List.mem_cons.mp hm with rfl | hm'
        · exact absurd rfl hne
        · exact him hm'
      · rintro ⟨h, him⟩
        have hne : l ≠ a := by
          rintro rfl
          exact ha (him (List.mem_cons_self _ _))
        exact ⟨⟨h, hne⟩, fun hm => him (List.mem_cons_of_mem _ hm)⟩

/-- Membership in the tracked key set after one reconciliation run. -/
lemma reconcile_mem (w : World) (s : TrackerState) (l : Nat) :
    l ∈ trackedLeaves (reconcile w s).tracked ↔
      (l ∈ trackedLeaves s.tracked ∨
        (l ∈ w.openLeaves ∧ l ∉ trackedLeaves s.tracked ∧
          w.isMarkdown l = true ∧ w.resolvable l = true)) ∧
      (l ∈ trackedLeaves s.tracked → l ∈ w.openLeaves) := by
  unfold reconcile
  rw [removeFold_mem, addFold_mem]

/-- C1: after a reconciliation run on open panes that are all Markdown
views, starting from a tracker whose tracked panes are Markdown views
with resolvable content elements (the invariant every reachable state
satisfies), the tracked key set is exactly the set of open panes whose
`.view-content` element resolves; a pane whose element does not resolve
is skipped and not tracked. -/
theorem C1_reconcile_bijection (w : World) (s : TrackerState)
    (hmd : ∀ l ∈ w.openLeaves, w.isMarkdown l = true)
    (hwf : ∀ l ∈ trackedLeaves s.tracked,
      w.isMarkdown l = true ∧ w.resolvable l = true) :
    ∀ l : Nat, l ∈ trackedLeaves (reconcile w s).tracked ↔
      (l ∈ w.openLeaves ∧ w.resolvable l = true) := by
  intro l
  rw [reconcile_mem]
  constructor
  · rintro ⟨h | ⟨ho, -, -, hres⟩, him⟩
    · exact ⟨him h, (hwf l h).2⟩
    · exact ⟨ho, hres⟩
  · rintro ⟨ho, hres⟩
    by_cases hm : l ∈ trackedLeaves s.tracked
    · exact ⟨Or.inl hm, fun _ => ho⟩
    · exact ⟨Or.inr ⟨ho, hm, hmd l ho, hres⟩, fun h => absurd h hm⟩

/-- The tracked-pane invariant used as the hypothesis of
`C1_reconcile_bijection` is itself preserved by every reconciliation
run (and holds trivially for the empty initial tracker). -/
lemma reconcile_preserves_wf (w : World) (s : TrackerState)
    (hwf : ∀ l ∈ trackedLeaves s.tracked,
      w.isMarkdown l = true ∧ w.resolvable l = true) :
    ∀ l ∈ trackedLeaves (reconcile w s).tracked,
      w.isMarkdown l = true ∧ w.resolvable l = true := by
  intro l hl
  rcases ((reconcile_mem w s l).mp hl).1 with h | ⟨-, -, hm, hr⟩
  · exact hwf l h
  · exact ⟨hm, hr⟩

def wEx : World :=
  { openLeaves := [1, 2, 3]
    isMarkdown := fun _ => true
    resolvable := fun l => decide (l ≠ 3)
    activeLeaf := some 2
    settings := DEFAULT_SETTINGS }

def sEx : TrackerState :=
  { tracked := [(1, 10)]
    attached := [10]
    contents := [(10, buttonsFor DEFAULT_SETTINGS)]
    visClass := ∅
    hidClass := {10}
    styleAttached := true
    nextId := 11
    mutations := 4 }

/-- C1 witness at a concrete world and tracker state. -/
theorem C1_witness :
    (2 ∈ trackedLeaves (reconcile wEx sEx).tracked ↔
      (2 ∈ wEx.openLeaves ∧ wEx.resolvable 2 = true)) ∧
    (3 ∈ trackedLeaves (reconcile wEx sEx).tracked ↔
      (3 ∈ wEx.openLeaves ∧ wEx.resolvable 3 = true)) :=
  ⟨C1_reconcile_bijection wEx sEx (by decide) (by decide) 2,
   C1_reconcile_bijection wEx sEx (by decide) (by decide) 3⟩

/-! ### Idempotence of reconciliation -/

lemma add_noop (w : World) (s : TrackerState) (leaf : Nat)
    (h : w.isMarkdown leaf = false ∨ w.resolvable leaf = false) :
    obs (addButtonsToLeaf w s leaf) = obs s := by
  unfold addButtonsToLeaf
  by_cases hcond : (!w.isMarkdown leaf || hasKey s.tracked leaf) = true
  · rw [if_pos hcond]
  · rw [if_neg hcond]
    have hres : w.resolvable leaf = false := by
      rcases h with h | h
      · exact absurd (by simp [h]) hcond
      · exact h
    rw [if_pos (by simp [hres])]
    rfl

lemma addFold_noop (w : World) (known : List Nat) :
    ∀ (L : List Nat) (s : TrackerState),
      (∀ l ∈ L, l ∈ known ∨ w.isMarkdown l = false ∨ w.resolvable l = false) →
      obs (L.foldl (reconcileAddStep w known) s) = obs s := by
  intro L
  induction L with
  | nil => intro s _; rfl
  | cons a L ih =>
    intro s h
    rw [List.foldl_cons]
    have hstep : obs (reconcileAddStep w known s a) = obs s := by
      unfold reconcileAddStep
      by_cases hk : a ∈ known
      · rw [if_pos hk]
      · rw [if_neg hk]
        exact add_noop w s a ((h a (List.mem_cons_self _ _)).resolve_left hk)
    rw [ih _ fun l hl => h l (List.mem_cons_of_mem _ hl), hstep]

lemma removeFold_skip (current : List Nat) :
    ∀ (K : List Nat) (s : TrackerState), (∀ k ∈ K, k ∈ current) →
      K.foldl (reconcileRemoveStep current) s = s := by
  intro K
  induction K with
  | nil => intro s _; rfl
  | cons a K ih =>
    intro s h
    rw [List.foldl_cons]
    unfold reconcileRemoveStep
    rw [if_pos (h a (List.mem_cons_self _ _))]
    exact ih s fun k hk => h k (List.mem_cons_of_mem _ hk)

/-- Reconciliation is observably a no-op on a state that already matches
the open-pane list. -/
lemma reconcile_noop (w : World) (s : TrackerState)
    (h1 : ∀ l ∈ trackedLeaves s.tracked, l ∈ w.openLeaves)
    (h2 : ∀ l ∈ w.openLeaves, w.isMarkdown l = true → w.resolvable l = true →
      l ∈ trackedLeaves s.tracked) :
    obs (reconcile w s) = obs s := by
  unfold reconcile
  rw [removeFold_skip w.openLeaves (trackedLeaves s.tracked) _ h1]
  apply addFold_noop
  intro l hl
  by_cases hmd : w.isMarkdown l = true
  · by_cases hres : w.resolvable l = true
    · exact Or.inl (h2 l hl hmd hres)
    · exact Or.inr (Or.inr (by simpa using hres))
  · exact Or.inr (Or.inl (by simpa using hmd))

lemma reconcile_post1 (w : World) (s : TrackerState) :
    ∀ l ∈ trackedLeaves (reconcile w s).tracked, l ∈ w.openLeaves := by
  intro l hl
  rcases (reconcile_mem w s l).mp hl with ⟨h | h, him⟩
  · exact him h
  · exact h.1

lemma reconcile_post2 (w : World) (s : TrackerState) :
    ∀ l ∈ w.openLeaves, w.isMarkdown l = true → w.resolvable l = true →
      l ∈ trackedLeaves (reconcile w s).tracked := by
  intro l hl hmd hres
  apply (reconcile_mem w s l).mpr
  by_cases hm : l ∈ trackedLeaves s.tracked
  · exact ⟨Or.inl hm, fun _ => hl⟩
  · exact ⟨Or.inr ⟨hl, hm, hmd, hres⟩, fun h => absurd h hm⟩

/-- C2: for every tracker state and every open-pane list, running the
reconciliation body a second time with the unchanged pane list leaves the
association table, the attached overlay DOM, the overlay contents, both
visibility class sets and the document-mutation count unchanged: all DOM
mutation happens on the first run. -/
theorem C2_reconcile_idempotent (w : World) (s : TrackerState) :
    (reconcile w (reconcile w s)).tracked = (reconcile w s).tracked ∧
    (reconcile w (reconcile w s)).attached = (reconcile w s).attached ∧
    (reconcile w (reconcile w s)).contents = (reconcile w s).contents ∧
    (reconcile w (reconcile w s)).visClass = (reconcile w s).visClass ∧
    (reconcile w (reconcile w s)).hidClass = (reconcile w s).hidClass ∧
    (reconcile w (reconcile w s)).mutations = (reconcile w s).mutations := by
  have h := reconcile_noop w (reconcile w s) (reconcile_post1 w s) (reconcile_post2 w s)
  simp only [obs, Prod.mk.injEq] at h
  exact ⟨h.1, h.2.1, h.2.2.1, h.2.2.2.1, h.2.2.2.2.1, h.2.2.2.2.2.2⟩

/-! ### Focus change (`handleActiveLeafChange`) -/

lemma setClass_mem_self (cls : Finset Nat) (c : Nat) (b : Bool) :
    c ∈ setClass cls c b ↔ b = true := by
  cases b <;> simp [setClass]

lemma setClass_mem_ne (cls : Finset Nat) (c d : Nat) (b : Bool) (h : c ≠ d) :
    c ∈ setClass cls d b ↔ c ∈ cls := by
  cases b <;> simp [setClass, h]

lemma hacStep_frame (w : World) (a : Option Nat) (s : TrackerState) (p : Nat × Nat) :
    (hacStep w a s p).tracked = s.tracked ∧ (hacStep w a s p).attached = s.attached := by
  unfold hacStep
  split
  · exact ⟨rfl, rfl⟩
  · exact ⟨rfl, rfl⟩

lemma hacFold_frame (w : World) (a : Option Nat) :
    ∀ (ps : List (Nat × Nat)) (s : TrackerState),
      (ps.foldl (hacStep w a) s).tracked = s.tracked ∧
      (ps.foldl (hacStep w a) s).attached = s.attached := by
  intro ps
  induction ps with
  | nil => intro s; exact ⟨rfl, rfl⟩
  | cons p ps ih =>
    intro s
    rw [List.foldl_cons]
    obtain ⟨h1, h2⟩ := ih (hacStep w a s p)
    obtain ⟨g1, g2⟩ := hacStep_frame w a s p
    exact ⟨h1.trans g1, h2.trans g2⟩

lemma hacFold_class_frame (w : World) (a : Option Nat) :
    ∀ (ps : List (Nat × Nat)) (s : TrackerState) (c : Nat),
      c ∉ ps.map (fun p => p.2) →
      ((c ∈ (ps.foldl (hacStep w a) s).visClass ↔ c ∈ s.visClass) ∧
       (c ∈ (ps.foldl (hacStep w a) s).hidClass ↔ c ∈ s.hidClass)) := by
  intro ps
  induction ps with
  | nil => intro s c _; exact ⟨Iff.rfl, Iff.rfl⟩
  | cons p ps ih =>
    intro s c hc
    rw [List.foldl_cons]
    have hcp : c ≠ p.2 := fun he => hc (by simp [he])
    have hctail : c ∉ ps.map (fun p => p.2) := fun h => hc (by simp [h])
    obtain ⟨h1, h2⟩ := ih (hacStep w a s p) c hctail
    refine ⟨h1.trans ?_, h2.trans ?_⟩
    · unfold hacStep
      split
      · exact setClass_mem_ne _ _ _ _ hcp
      · exact Iff.rfl
    · unfold hacStep
      split
      · exact setClass_mem_ne _ _ _ _ hcp
      · exact Iff.rfl

lemma hacFold_mem (w : World) (a : Option Nat) :
    ∀ (ps : List (Nat × Nat)) (s : TrackerState),
      (ps.map (fun p => p.2)).Nodup →
      (∀ q ∈ ps, w.isMarkdown q.1 = true) →
      ∀ q ∈ ps,
        ((q.2 ∈ (ps.foldl (hacStep w a) s).visClass ↔ some q.1 = a) ∧
         (q.2 ∈ (ps.foldl (hacStep w a) s).hidClass ↔ ¬(some q.1 = a))) := by
  intro ps
  induction ps with
  | nil => intro s _ _ q hq; cases hq
  | cons p ps ih =>
    intro s hnd hmd q hq
    rw [List.map_cons, List.nodup_cons] at hnd
    rw [List.foldl_cons]
    rcases List.mem_cons.mp hq with rfl | hq'
    · obtain ⟨f1, f2⟩ := hacFold_class_frame w a ps (hacStep w a s q) q.2 hnd.1
      rw [f1, f2]
      have hm := hmd q (List.mem_cons_self _ _)
      unfold hacStep
      rw [if_pos hm]
      constructor <;> simp [setClass_mem_self]
    · exact ih (hacStep w a s p) hnd.2
        (fun r hr => hmd r (List.mem_cons_of_mem _ hr)) q hq'

/-- C5: after the focus-change handler runs with newly focused pane `p`
(all tracked panes being Markdown views with distinct container nodes),
exactly the overlay of `p` carries the visible class and every other
tracked overlay carries the hidden class, while neither the association
table nor the attached overlay DOM changes. -/
theorem C5_single_focus (w : World) (s : TrackerState) (p : Nat)
    (hmd : ∀ q ∈ s.tracked, w.isMarkdown q.1 = true)
    (hnd : (s.tracked.map (fun q => q.2)).Nodup) :
    (handleActiveLeafChange w (some p) s).tracked = s.tracked ∧
    (handleActiveLeafChange w (some p) s).attached = s.attached ∧
    ∀ q ∈ s.tracked,
      ((q.2 ∈ (handleActiveLeafChange w (some p) s).visClass ↔ q.1 = p) ∧
       (q.2 ∈ (handleActiveLeafChange w (some p) s).hidClass ↔ q.1 ≠ p)) := by
  obtain ⟨h1, h2⟩ := hacFold_frame w (some p) s.tracked s
  refine ⟨h1, h2, fun q hq => ?_⟩
  obtain ⟨m1, m2⟩ := hacFold_mem w (some p) s.tracked s hnd hmd q hq
  exact ⟨m1.trans (by simp), m2.trans (by simp)⟩

def sEx2 : TrackerState :=
  { tracked := [(1, 10), (2, 11)]
    attached := [10, 11]
    contents := [(10, buttonsFor DEFAULT_SETTINGS), (11, buttonsFor DEFAULT_SETTINGS)]
    visClass := {11}
    hidClass := {10}
    styleAttached := true
    nextId := 12
    mutations := 8 }

/-- C5 witness: focusing pane 1 makes exactly its overlay visible. -/
theorem C5_witness :
    (10 ∈ (handleActiveLeafChange wEx (some 1) sEx2).visClass ↔ (1 : Nat) = 1) ∧
    (11 ∈ (handleActiveLeafChange wEx (some 1) sEx2).visClass ↔ (2 : Nat) = 1) :=
  ⟨((C5_single_focus wEx sEx2 1 (by decide) (by decide)).2.2 (1, 10) (by decide)).1,
   ((C5_single_focus wEx sEx2 1 (by decide) (by decide)).2.2 (2, 11) (by decide)).1⟩

/-! ### `updateAllButtons` -/

lemma updateStep_mem (w : World) (s : TrackerState) (a l : Nat) :
    l ∈ trackedLeaves (updateStep w s a).tracked ↔
      ((l ∈ trackedLeaves s.tracked ∧ l ≠ a) ∨
        (l = a ∧ w.isMarkdown a = true ∧ w.resolvable a = true)) := by
  unfold updateStep
  rw [trackedLeaves_add, trackedLeaves_remove]

lemma updateFold_mem (w : World) :
    ∀ (L : List Nat) (s : TrackerState) (l : Nat),
      l ∈ trackedLeaves ((L.foldl (updateStep w) s).tracked) ↔
        ((l ∈ L ∧ w.isMarkdown l = true ∧ w.resolvable l = true) ∨
          (l ∉ L ∧ l ∈ trackedLeaves s.tracked)) := by
  intro L
  induction L with
  | nil => simp
  | cons a L ih =>
    intro s l
    rw [List.foldl_cons, ih, updateStep_mem]
    by_cases hl : l = a
    · subst hl
      simp only [List.mem_cons, true_or, ne_eq, not_true_eq_false, and_false,
        false_or, true_and, not_or]
      tauto
    · simp only [List.mem_cons, hl, false_or, ne_eq, not_false_eq_true, and_true,
        false_and, or_false, not_or]

/-- C6 counterexample: on the empty tracker with open resolvable pane 1,
`updateAllButtons` adds a tracked pane, so it does not preserve the
tracked key set for every tracker state. -/
theorem C6_counterexample :
    trackedLeaves (updateAllButtons wEx emptyTracker).tracked ≠
      trackedLeaves emptyTracker.tracked := by
  decide

/-- C6 (amended): `updateAllButtons` preserves the tracked key set on
every state satisfying the reconciliation invariant — tracked panes are
exactly the open panes with resolvable content elements.  (On other
states it behaves like a reconciliation and can add or drop panes.) -/
theorem C6_rebuild_preserves_keys (w : World) (s : TrackerState)
    (hmd : ∀ l ∈ w.openLeaves, w.isMarkdown l = true)
    (hinv : ∀ l : Nat, l ∈ trackedLeaves s.tracked ↔
      (l ∈ w.openLeaves ∧ w.resolvable l = true)) :
    ∀ l : Nat, l ∈ trackedLeaves (updateAllButtons w s).tracked ↔
      l ∈ trackedLeaves s.tracked := by
  intro l
  unfold updateAllButtons
  rw [updateFold_mem]
  constructor
  · rintro (⟨hL, -, hres⟩ | ⟨-, hT⟩)
    · exact (hinv l).mpr ⟨hL, hres⟩
    · exact hT
  · intro hT
    obtain ⟨ho, hres⟩ := (hinv l).mp hT
    exact Or.inl ⟨ho, hmd l ho, hres⟩

/-- C6 witness at a concrete invariant-satisfying state. -/
theorem C6_witness :
    (2 ∈ trackedLeaves (updateAllButtons wEx sEx2).tracked ↔
      2 ∈ trackedLeaves sEx2.tracked) ∧
    (3 ∈ trackedLeaves (updateAllButtons wEx sEx2).tracked ↔
      3 ∈ trackedLeaves sEx2.tracked) := by
  have hinv : ∀ l : Nat, l ∈ trackedLeaves sEx2.tracked ↔
      (l ∈ wEx.openLeaves ∧ wEx.resolvable l = true) := by
    intro l
    simp [trackedLeaves, sEx2, wEx]
    omega
  exact ⟨C6_rebuild_preserves_keys wEx sEx2 (by decide) hinv 2,
    C6_rebuild_preserves_keys wEx sEx2 (by decide) hinv 3⟩

/-! ### Deactivation (`onunload`) -/

lemma foldl_erase_eq_filter :
    ∀ (K A : List Nat), A.Nodup →
      K.foldl (fun a c => a.erase c) A = A.filter (fun x => decide (x ∉ K)) := by
  intro K
  induction K with
  | nil => intro A _; simp
  | cons k K ih =>
    intro A hA
    rw [List.foldl_cons, ih (A.erase k) (hA.erase k),
      List.Nodup.erase_eq_filter hA k, List.filter_filter]
    apply List.filter_congr
    intro x _
    by_cases hxk : x = k <;> simp [List.mem_cons, not_or, Bool.and_comm, hxk]

/-- C9: after `onunload` on a state whose attached overlay nodes are the
tracked container nodes (the invariant every reachable state satisfies),
no overlay node remains attached, the association table is empty, and
the style node is detached. -/
theorem C9_unload_clean (s : TrackerState)
    (hnd : s.attached.Nodup)
    (hsub : ∀ c ∈ s.attached, c ∈ s.tracked.map (fun p => p.2)) :
    (onunloadPlugin s).attached = [] ∧ (onunloadPlugin s).tracked = [] ∧
      (onunloadPlugin s).styleAttached = false := by
  refine ⟨?_, rfl, rfl⟩
  show s.tracked.foldl (fun att p => att.erase p.2) s.attached = []
  have hmap : s.tracked.foldl (fun att p => att.erase p.2) s.attached =
      (s.tracked.map (fun p => p.2)).foldl (fun att c => att.erase c) s.attached := by
    rw [List.foldl_map]
  rw [hmap, foldl_erase_eq_filter _ _ hnd]
  rw [List.filter_eq_nil_iff]
  intro c hc
  simp [hsub c hc]

/-- C9 witness at a concrete two-pane state. -/
theorem C9_witness :
    (onunloadPlugin sEx2).attached = [] ∧ (onunloadPlugin sEx2).tracked = [] ∧
      (onunloadPlugin sEx2).styleAttached = false :=
  C9_unload_clean sEx2 (by decide) (by decide)

/-! ## `scrollToPosition` (src/main.ts lines 298-323) -/

inductive ScrollPos
  | top
  | bottom
deriving DecidableEq, Repr

inductive ViewMode
  | source
  | preview
deriving DecidableEq, Repr

structure EditorModel where
  lineCount : Nat
deriving DecidableEq, Repr

structure PreviewElModel where
  scrollHeight : Nat
deriving DecidableEq, Repr

/-- The collaborator `MarkdownView`: its mode, its editor, and the result
of the `.markdown-preview-view` query on its preview container. -/
structure MdViewModel where
  mode : ViewMode
  editor : EditorModel
  previewEl : Option PreviewElModel
deriving DecidableEq, Repr

/-- The scroll request issued to the host: none, an editor
`scrollIntoView` of a line range with centering, or a preview-container
`scrollTo` with a target offset and smooth-vs-auto behavior. -/
inductive ScrollEffect
  | noEffect
  | editorScrollIntoView (fromLine toLine : Nat) (center : Bool)
  | previewScrollTo (top : Nat) (smooth : Bool)
deriving DecidableEq, Repr

def scrollToPosition (st : ScrollControlSettings) (position : ScrollPos)
    (view : Option MdViewModel) : ScrollEffect :=
  match view with
  | none => ScrollEffect.noEffect
  | some v =>
    if v.mode = ViewMode.source then
      let line := match position with
        | ScrollPos.top => 0
        | ScrollPos.bottom => v.editor.lineCount - 1
      ScrollEffect.editorScrollIntoView line line true
    else
      match v.previewEl with
      | none => ScrollEffect.noEffect
      | some p =>
        ScrollEffect.previewScrollTo
          (match position with
            | ScrollPos.top => 0
            | ScrollPos.bottom => p.scrollHeight)
          st.useAnimations

/-- C7: `scrollToPosition` is a no-op without a pane; in source mode it
requests a centered scroll-into-view of line 0 (top) or line
`lineCount - 1` (bottom); in preview mode it scrolls the preview
container to offset 0 (top) or its full scroll height (bottom), smooth
exactly when the animation setting is on. -/
theorem C7_scrollToPosition (st : ScrollControlSettings) :
    (∀ pos, scrollToPosition st pos none = ScrollEffect.noEffect) ∧
    (∀ v : MdViewModel, v.mode = ViewMode.source →
      scrollToPosition st ScrollPos.top (some v) =
        ScrollEffect.editorScrollIntoView 0 0 true ∧
      scrollToPosition st ScrollPos.bottom (some v) =
        ScrollEffect.editorScrollIntoView (v.editor.lineCount - 1)
          (v.editor.lineCount - 1) true) ∧
    (∀ (v : MdViewModel) (p : PreviewElModel),
      v.mode = ViewMode.preview → v.previewEl = some p →
      scrollToPosition st ScrollPos.top (some v) =
        ScrollEffect.previewScrollTo 0 st.useAnimations ∧
      scrollToPosition st ScrollPos.bottom (some v) =
        ScrollEffect.previewScrollTo p.scrollHeight st.useAnimations) := by
  refine ⟨fun pos => rfl, fun v hm => ?_, fun v p hm hp => ?_⟩
  · constructor <;> simp [scrollToPosition, hm]
  · have hne : ¬(v.mode = ViewMode.source) := by
      rw [hm]
      intro h
      cases h
    constructor <;> simp [scrollToPosition, hne, hp]

def vSrc : MdViewModel :=
  { mode := ViewMode.source, editor := { lineCount := 12 }, previewEl := none }

/-- C7 witness: source mode, bottom, on a 12-line editor. -/
theorem C7_witness :
    scrollToPosition DEFAULT_SETTINGS ScrollPos.bottom (some vSrc) =
      ScrollEffect.editorScrollIntoView 11 11 true :=
  ((C7_scrollToPosition DEFAULT_SETTINGS).2.1 vSrc rfl).2

/-! ## Debounced layout-change coalescing

Modelled from the spec: the reconciliation body is registered through the
host's `debounce(fn, 300, true)` utility, which is not part of this
repository's sources.  Per the spec, every arriving event resets a
single pending timer to the quiescence delay; when the timer expires
before another event arrives, the callback fires once — trailing edge,
leading edge suppressed. -/

/-- Firing times of the pending timer, given the current deadline and the
remaining event times (each event resets the deadline). -/
def debounceGo (delay : Nat) : Nat → List Nat → List Nat
  | deadline, [] => [deadline]
  | deadline, t :: ts =>
    if deadline ≤ t then deadline :: debounceGo delay (t + delay) ts
    else debounceGo delay (t + delay) ts

/-- Firing times of the debounced handler for a list of event times. -/
def debounceFires (delay : Nat) : List Nat → List Nat
  | [] => []
  | t :: ts => debounceGo delay (t + delay) ts

lemma debounceGo_burst (delay : Nat) :
    ∀ (ts : List Nat) (t : Nat),
      List.Chain (fun a b => a ≤ b ∧ b < a + delay) t ts →
      debounceGo delay (t + delay) ts = [ts.getLastD t + delay] := by
  intro ts
  induction ts with
  | nil => intro t _; simp [debounceGo]
  | cons u ts ih =>
    intro t hc
    rw [List.chain_cons] at hc
    have hstep : debounceGo delay (t + delay) (u :: ts) =
        if t + delay ≤ u then (t + delay) :: debounceGo delay (u + delay) ts
        else debounceGo delay (u + delay) ts := rfl
    rw [hstep, if_neg (by omega), ih u hc.2, List.getLastD_cons]

lemma chain_le_getLastD (delay : Nat) :
    ∀ (ts : List Nat) (t : Nat),
      List.Chain (fun a b => a ≤ b ∧ b < a + delay) t ts →
      t ≤ ts.getLastD t := by
  intro ts
  induction ts with
  | nil => intro t _; simp [List.getLastD]
  | cons u ts ih =>
    intro t hc
    rw [List.chain_cons] at hc
    rw [List.getLastD_cons]
    exact le_trans hc.1.1 (ih u hc.2)

/-- C8: a burst of time-ordered layout-change events whose consecutive
gaps are all below the 300 ms quiescence window produces exactly one
firing of the debounced reconciliation, on the trailing edge — 300 ms
after the last event, strictly after the first event (leading edge
suppressed) — so the reconciliation consumes the open-pane list observed
after the last event of the burst. -/
theorem C8_debounce_coalescing (t : Nat) (ts : List Nat)
    (paneList : Nat → List Nat)
    (hburst : List.Chain (fun a b => a ≤ b ∧ b < a + 300) t ts) :
    debounceFires 300 (t :: ts) = [ts.getLastD t + 300] ∧
    (debounceFires 300 (t :: ts)).map paneList = [paneList (ts.getLastD t + 300)] ∧
    ∀ x ∈ debounceFires 300 (t :: ts), t < x := by
  have h : debounceFires 300 (t :: ts) = [ts.getLastD t + 300] := by
    show debounceGo 300 (t + 300) ts = _
    exact debounceGo_burst 300 ts t hburst
  refine ⟨h, by rw [h]; rfl, ?_⟩
  intro x hx
  rw [h] at hx
  simp only [List.mem_singleton] at hx
  subst hx
  have := chain_le_getLastD 300 ts t hburst
  omega

/-- C8 witness: three events at 0, 100, 350 ms produce the single firing
at 650 ms. -/
theorem C8_witness : debounceFires 300 [0, 100, 350] = [650] :=
  (C8_debounce_coalescing 0 [100, 350] (fun _ => [])
    (List.Chain.cons (by omega) (List.Chain.cons (by omega) List.Chain.nil))).1

end ScrollControl
